import Mathlib

/-!
Verification of the substrate-kitties pallet (src/impls.rs, src/lib.rs).

The pallet's storage — `CountForKitties : u32`, `Kitties : map [u8; 32] → Kitty`,
`KittiesOwned : map AccountId → BoundedVec<[u8; 32], 100>` — together with the
native balances and the deposited events are embedded as an explicit `State`
record. Each dispatchable's business logic (`mint`, `do_transfer`,
`do_set_price`, `do_buy_kitty`) is translated as a pure function
`State → Except Err State`; an error result means the surrounding frame
executive discards every write of the call (`runOp` models that all-or-nothing
boundary), which matches substrate's transactional dispatch semantics.
-/

namespace Kitties

/-- A 32-byte kitty DNA, the `[u8; 32]` key of the `Kitties` storage map. -/
abbrev Dna : Type := { l : List (Fin 256) // l.length = 32 }

/-- The `Kitty<T>` struct from lib.rs: dna, owner and an optional sale price.
Balances (`BalanceOf<T>`) are modelled as `Nat`. -/
structure Kitty (A : Type) where
  dna : Dna
  owner : A
  price : Option Nat

/-- The pallet's `Error<T>` enum, plus `InsufficientFunds` for the failure of
the external `NativeBalance::transfer` primitive (a token error in substrate,
surfaced through the same `DispatchResult`). -/
inductive Err where
  | TooManyKitties
  | DuplicateKitty
  | TooManyOwned
  | TransferToSelf
  | NoKitty
  | NotOwner
  | NotForSale
  | MaxPriceTooLow
  | InsufficientFunds
  deriving DecidableEq

/-- The pallet's `Event<T>` enum. -/
inductive Event (A : Type) where
  | Created (owner : A)
  | Transferred (src dst : A) (kitty_id : Dna)
  | PriceSet (owner : A) (kitty_id : Dna) (new_price : Option Nat)
  | Sold (buyer : A) (kitty_id : Dna) (price : Nat)

/-- The `Preservation` mode passed to `NativeBalance::transfer`
(frame's `traits::tokens::Preservation`). -/
inductive Preservation where
  | Expendable
  | Preserve
  | Protect
  deriving DecidableEq

/-- The pallet storage plus the native balance ledger and the event queue. -/
structure State (A : Type) where
  countForKitties : Nat
  kitties : List (Dna × Kitty A)
  kittiesOwned : A → List Dna
  balances : A → Nat
  events : List (Event A)

variable {A : Type} [DecidableEq A]

/-- `StorageMap::get` on the `Kitties` map (association-list lookup). -/
def lookupK (d : Dna) : List (Dna × Kitty A) → Option (Kitty A)
  | [] => none
  | (d', k) :: rest => if d' = d then some k else lookupK d rest

/-- `StorageMap::insert` on the `Kitties` map: replace the entry if the key is
present, otherwise add a new entry. -/
def insertK (d : Dna) (k : Kitty A) : List (Dna × Kitty A) → List (Dna × Kitty A)
  | [] => [(d, k)]
  | (d', k') :: rest => if d' = d then (d, k) :: rest else (d', k') :: insertK d k rest

/-- `u32::checked_add(1)` on the kitty counter: fails on 32-bit overflow. -/
def checkedAddOne (c : Nat) : Option Nat :=
  if c + 1 < 2 ^ 32 then some (c + 1) else none

/-- `BoundedVec::try_push` / `StorageMap::try_append` with bound
`ConstU32<100>`: appends at the end unless the vector already has 100
entries. -/
def tryPush (l : List Dna) (d : Dna) : Option (List Dna) :=
  if l.length < 100 then some (l ++ [d]) else none

/-- `iter().position(|&id| id == kitty_id)`: index of the first occurrence. -/
def position (d : Dna) : List Dna → Option Nat
  | [] => none
  | e :: rest => if e = d then some 0 else (position d rest).map (· + 1)

/-- `Vec::swap_remove(i)`: overwrite slot `i` with the last element, then drop
the last element. -/
def swapRemove (l : List Dna) (i : Nat) : List Dna :=
  match l.getLast? with
  | none => []
  | some last => (l.set i last).dropLast

/-- Number of occurrences of a DNA in an owned list. -/
def countD (d : Dna) : List Dna → Nat
  | [] => 0
  | e :: rest => (if e = d then 1 else 0) + countD d rest

/-- `Pallet::mint` from impls.rs: duplicate check, checked counter increment,
bounded append to the owner's list, insert into `Kitties`, set the counter,
deposit `Created`. -/
def mint (s : State A) (owner : A) (dna : Dna) : Except Err (State A) :=
  let kitty : Kitty A := ⟨dna, owner, none⟩
  if (lookupK dna s.kitties).isSome then .error .DuplicateKitty
  else
    match checkedAddOne s.countForKitties with
    | none => .error .TooManyKitties
    | some newCount =>
      match tryPush (s.kittiesOwned owner) dna with
      | none => .error .TooManyOwned
      | some owned' =>
        .ok { s with
                kitties := insertK dna kitty s.kitties,
                kittiesOwned := Function.update s.kittiesOwned owner owned',
                countForKitties := newCount,
                events := s.events ++ [.Created owner] }

/-- `Pallet::do_transfer` from impls.rs: reject self-transfer, load the kitty,
check ownership, clear the price and set the new owner, try-push into the
recipient's list, locate and swap-remove from the sender's list (absence
yields `NoKitty`), write back, deposit `Transferred`. -/
def do_transfer (s : State A) (src dst : A) (kitty_id : Dna) : Except Err (State A) :=
  if src = dst then .error .TransferToSelf
  else
    match lookupK kitty_id s.kitties with
    | none => .error .NoKitty
    | some kitty =>
      if kitty.owner = src then
        let kitty' : Kitty A := { kitty with owner := dst, price := none }
        match tryPush (s.kittiesOwned dst) kitty_id with
        | none => .error .TooManyOwned
        | some toOwned' =>
          match position kitty_id (s.kittiesOwned src) with
          | none => .error .NoKitty
          | some ind =>
            .ok { s with
                    kitties := insertK kitty_id kitty' s.kitties,
                    kittiesOwned :=
                      Function.update (Function.update s.kittiesOwned dst toOwned') src
                        (swapRemove (s.kittiesOwned src) ind),
                    events := s.events ++ [.Transferred src dst kitty_id] }
      else .error .NotOwner

/-- `Pallet::do_set_price` from impls.rs. -/
def do_set_price (s : State A) (caller : A) (kitty_id : Dna) (new_price : Option Nat) :
    Except Err (State A) :=
  match lookupK kitty_id s.kitties with
  | none => .error .NoKitty
  | some kitty =>
    if kitty.owner = caller then
      .ok { s with
              kitties := insertK kitty_id { kitty with price := new_price } s.kitties,
              events := s.events ++ [.PriceSet caller kitty_id new_price] }
    else .error .NotOwner

/-- Modelled from the spec: the external Balance Transfer Primitive
(`T::NativeBalance::transfer`), which is not part of this repository.
Per the spec it moves `amount` from `src` to `dst` and fails with
`InsufficientFunds` otherwise; the `Preservation` mode is recorded to keep the
payer's account alive ("preserve" semantics) and does not alter the amount
moved. -/
def nativeTransfer (bal : A → Nat) (src dst : A) (amount : Nat) (_mode : Preservation) :
    Except Err (A → Nat) :=
  if amount ≤ bal src then
    let b1 := Function.update bal src (bal src - amount)
    .ok (Function.update b1 dst (b1 dst + amount))
  else .error .InsufficientFunds

/-- `Pallet::do_buy_kitty` from impls.rs: load the kitty, require a listed
price, require `real_price ≤ price`, pay the seller with
`Preservation::Preserve`, reuse `do_transfer`, deposit `Sold` with the listed
price. -/
def do_buy_kitty (s : State A) (buyer : A) (kitty_id : Dna) (price : Nat) :
    Except Err (State A) :=
  match lookupK kitty_id s.kitties with
  | none => .error .NoKitty
  | some kitty =>
    match kitty.price with
    | none => .error .NotForSale
    | some real_price =>
      if real_price ≤ price then
        match nativeTransfer s.balances buyer kitty.owner real_price .Preserve with
        | .error e => .error e
        | .ok bal' =>
          match do_transfer { s with balances := bal' } kitty.owner buyer kitty_id with
          | .error e => .error e
          | .ok s' => .ok { s' with events := s'.events ++ [.Sold buyer kitty_id real_price] }
      else .error .MaxPriceTooLow

/-- The host's all-or-nothing dispatch boundary: an extrinsic that errors has
all of its writes discarded, so the observable post-state is the pre-state. -/
def runOp (f : State A → Except Err (State A)) (s : State A) : State A :=
  match f s with
  | .ok s' => s'
  | .error _ => s

/-- The ownership invariant: every registered kitty's DNA occurs exactly once
in its owner's list and in nobody else's, and every DNA appearing in some
owned list is registered. -/
def OwnershipInv (s : State A) : Prop :=
  (∀ d k, lookupK d s.kitties = some k →
      countD d (s.kittiesOwned k.owner) = 1 ∧
      ∀ a, a ≠ k.owner → d ∉ s.kittiesOwned a) ∧
  (∀ a d, d ∈ s.kittiesOwned a → (lookupK d s.kitties).isSome)

/-- The claim C3 phrasing of the invariant: each registered kitty's DNA
appears in its owner's list, and in no other account's list. -/
def OwnedUniquely (s : State A) : Prop :=
  ∀ d k, lookupK d s.kitties = some k →
    d ∈ s.kittiesOwned k.owner ∧ ∀ a, d ∈ s.kittiesOwned a → a = k.owner

/-- The counter invariant: `CountForKitties` equals the number of entries of
the `Kitties` map. -/
def CountInv (s : State A) : Prop :=
  s.countForKitties = s.kitties.length

/-- Concrete DNA made of 32 equal bytes, for concrete test states. -/
def dnaOf (b : Fin 256) : Dna := ⟨List.replicate 32 b, List.length_replicate 32 b⟩

/-- DNA of 32 zero bytes. -/
def dnaA : Dna := dnaOf 0

/-- DNA of 32 one bytes. -/
def dnaB : Dna := dnaOf 1

/-- DNA of 32 two bytes. -/
def dnaC : Dna := dnaOf 2

/-- The genesis state: no kitties, no balances, no events. -/
def s0 : State Nat :=
  { countForKitties := 0, kitties := [], kittiesOwned := fun _ => [],
    balances := fun _ => 0, events := [] }

/-- A state with one kitty `dnaA` owned by account 0 and listed at price 100;
every account holds balance 200. -/
def sInv : State Nat :=
  { countForKitties := 1, kitties := [(dnaA, ⟨dnaA, 0, some 100⟩)],
    kittiesOwned := fun a => if a = 0 then [dnaA] else [],
    balances := fun _ => 200, events := [] }

/-- A state where account 1 already owns 100 kitties, and account 0 owns
`dnaA`, listed at price 100; every account holds balance 500. -/
def sFull : State Nat :=
  { countForKitties := 1, kitties := [(dnaA, ⟨dnaA, 0, some 100⟩)],
    kittiesOwned := fun a =>
      if a = 0 then [dnaA] else if a = 1 then List.replicate 100 dnaB else [],
    balances := fun _ => 500, events := [] }

/-- An inconsistent state: the kitty record for `dnaA` names account 0 as
owner, but no account's owned list contains `dnaA`. -/
def sBad : State Nat :=
  { countForKitties := 1, kitties := [(dnaA, ⟨dnaA, 0, none⟩)],
    kittiesOwned := fun _ => [], balances := fun _ => 0, events := [] }

/-- A state where account 1 owns kitty `dnaA` and has listed it at price 100;
every account holds balance 200. -/
def sSelf : State Nat :=
  { countForKitties := 1, kitties := [(dnaA, ⟨dnaA, 1, some 100⟩)],
    kittiesOwned := fun a => if a = 1 then [dnaA] else [],
    balances := fun _ => 200, events := [] }

/-! ## Basic lemmas about the storage primitives -/

theorem countD_append (d : Dna) (l₁ l₂ : List Dna) :
    countD d (l₁ ++ l₂) = countD d l₁ + countD d l₂ := by
  induction l₁ with
  | nil => simp [countD]
  | cons e t ih => simp [countD, ih]; omega

theorem countD_pos_iff_mem (d : Dna) (l : List Dna) : 0 < countD d l ↔ d ∈ l := by
  induction l with
  | nil => simp [countD]
  | cons e t ih =>
    by_cases h : e = d
    · subst h; simp [countD]
    · have h' : ¬d = e := fun hh => h hh.symm
      simp [countD, h, h', ih]

theorem countD_eq_zero_iff (d : Dna) (l : List Dna) : countD d l = 0 ↔ d ∉ l := by
  rw [← countD_pos_iff_mem]; omega

theorem lookupK_insertK_self (d : Dna) (k : Kitty A) (m : List (Dna × Kitty A)) :
    lookupK d (insertK d k m) = some k := by
  induction m with
  | nil => simp [insertK, lookupK]
  | cons p rest ih =>
    obtain ⟨d', k'⟩ := p
    by_cases h : d' = d <;> simp [insertK, lookupK, h, ih]

theorem lookupK_insertK_ne (d' d : Dna) (k : Kitty A) (m : List (Dna × Kitty A))
    (h : d' ≠ d) : lookupK d' (insertK d k m) = lookupK d' m := by
  induction m with
  | nil =>
    have h2 : ¬d = d' := fun hh => h hh.symm
    simp [insertK, lookupK, h2]
  | cons p rest ih =>
    obtain ⟨d'', k''⟩ := p
    by_cases h1 : d'' = d
    · subst h1
      have h2 : ¬d'' = d' := fun hh => h hh.symm
      simp [insertK, lookupK, h2]
    · by_cases h2 : d'' = d'
      · subst h2
        simp [insertK, lookupK, h1]
      · simp [insertK, lookupK, h1, h2, ih]

theorem length_insertK_of_isSome (d : Dna) (k : Kitty A) (m : List (Dna × Kitty A))
    (h : (lookupK d m).isSome) : (insertK d k m).length = m.length := by
  induction m with
  | nil => simp [lookupK] at h
  | cons p rest ih =>
    obtain ⟨d', k'⟩ := p
    by_cases h1 : d' = d
    · simp [insertK, h1]
    · simp only [lookupK, h1, if_false] at h
      simp [insertK, h1, ih h]

theorem length_insertK_of_none (d : Dna) (k : Kitty A) (m : List (Dna × Kitty A))
    (h : lookupK d m = none) : (insertK d k m).length = m.length + 1 := by
  induction m with
  | nil => simp [insertK]
  | cons p rest ih =>
    obtain ⟨d', k'⟩ := p
    by_cases h1 : d' = d
    · simp [lookupK, h1] at h
    · simp only [lookupK, h1, if_false] at h
      simp [insertK, h1, ih h]

theorem position_eq_none_iff (d : Dna) (l : List Dna) : position d l = none ↔ d ∉ l := by
  induction l with
  | nil => simp [position]
  | cons e t ih =>
    by_cases h : e = d
    · subst h; simp [position]
    · have h' : ¬d = e := fun hh => h hh.symm
      simp [position, h, h', ih]

theorem mem_of_position_eq_some (d : Dna) (l : List Dna) (i : Nat)
    (h : position d l = some i) : d ∈ l := by
  by_contra hmem
  rw [← position_eq_none_iff] at hmem
  rw [hmem] at h
  exact Option.noConfusion h

theorem position_isSome_of_mem (d : Dna) (l : List Dna) (h : d ∈ l) :
    (position d l).isSome := by
  rw [Option.isSome_iff_ne_none]
  intro hn
  exact (position_eq_none_iff d l).1 hn h

theorem dropLast_cons_ne_nil (a : Dna) (l : List Dna) (h : l ≠ []) :
    (a :: l).dropLast = a :: l.dropLast := by
  cases l with
  | nil => exact absurd rfl h
  | cons b t => rfl

theorem countD_dropLast (e : Dna) (l : List Dna) (h : l ≠ []) :
    countD e l = countD e l.dropLast + (if l.getLast h = e then 1 else 0) := by
  conv_lhs => rw [← List.dropLast_append_getLast h]
  rw [countD_append]
  simp [countD]

theorem swapRemove_cons_succ (a : Dna) (t : List Dna) (ht : t ≠ []) (j : Nat) :
    swapRemove (a :: t) (j + 1) = a :: swapRemove t j := by
  have hsome : ((a :: t).getLast?).isSome := by
    rw [List.getLast?_isSome]
    exact List.cons_ne_nil a t
  obtain ⟨last, hlast⟩ := Option.isSome_iff_exists.mp hsome
  have hlast' : t.getLast? = some last := by
    cases t with
    | nil => exact absurd rfl ht
    | cons b t' => rwa [List.getLast?_cons_cons] at hlast
  have hset : t.set j last ≠ [] := by
    intro he
    have := congrArg List.length he
    simp at this
    exact ht this
  rw [swapRemove, hlast, swapRemove, hlast']
  show ((a :: t).set (j + 1) last).dropLast = a :: (t.set j last).dropLast
  rw [List.set_cons_succ]
  exact dropLast_cons_ne_nil a (t.set j last) hset

theorem countD_swapRemove (d : Dna) (l : List Dna) :
    ∀ i : Nat, position d l = some i →
      ∀ e, countD e (swapRemove l i) = countD e l - (if e = d then 1 else 0) := by
  induction l with
  | nil => intro i h; simp [position] at h
  | cons a t ih =>
    intro i h e
    by_cases ha : a = d
    · subst ha
      simp [position] at h
      subst h
      cases t with
      | nil =>
        simp only [swapRemove, List.getLast?_singleton, List.set, List.dropLast_single]
        simp only [countD]
        by_cases he : e = a
        · subst he; simp
        · have he' : ¬a = e := fun hh => he hh.symm
          simp [he, he']
      | cons b t' =>
        have hbt : (b :: t') ≠ [] := List.cons_ne_nil b t'
        have hlast : (a :: b :: t').getLast? = some ((b :: t').getLast hbt) := by
          rw [List.getLast?_cons_cons]
          exact List.getLast?_eq_getLast (b :: t') hbt
        rw [swapRemove, hlast]
        show countD e (((b :: t').getLast hbt :: b :: t').dropLast) = _
        rw [dropLast_cons_ne_nil _ _ hbt]
        have hdl := countD_dropLast e (b :: t') hbt
        simp only [countD] at hdl ⊢
        by_cases he : e = a
        · subst he
          simp at hdl ⊢
          split_ifs at hdl ⊢ <;> omega
        · have he' : ¬a = e := fun hh => he hh.symm
          simp only [if_neg he, if_neg he']
          split_ifs at hdl ⊢ <;> omega
    · have ha' : ¬a = d := ha
      simp only [position, ha', if_false] at h
      obtain ⟨j, hj⟩ : ∃ j, position d t = some j := by
        cases hpt : position d t with
        | none => rw [hpt] at h; simp at h
        | some j => exact ⟨j, rfl⟩
      rw [hj] at h
      simp only [Option.map_some'] at h
      obtain rfl : j + 1 = i := Option.some.inj h
      have ht : t ≠ [] := by
        intro hemp
        rw [hemp] at hj
        simp [position] at hj
      rw [swapRemove_cons_succ a t ht j]
      have hrec := ih j hj e
      have hmem : d ∈ t := mem_of_position_eq_some d t j hj
      have hpos : 0 < countD d t := (countD_pos_iff_mem d t).2 hmem
      simp only [countD, hrec]
      by_cases he : e = d
      · subst he
        have ha2 : ¬a = e := ha
        simp [ha2]
      · simp [he]

theorem mem_of_mem_swapRemove (d : Dna) (l : List Dna) (i : Nat)
    (hp : position d l = some i) (e : Dna) (he : e ∈ swapRemove l i) : e ∈ l := by
  have h1 := countD_swapRemove d l i hp e
  have h2 := (countD_pos_iff_mem e (swapRemove l i)).2 he
  refine (countD_pos_iff_mem e l).1 ?_
  omega

/-! ## Shape lemmas for the pallet operations -/

theorem mint_eq_ok (s : State A) (o : A) (d : Dna)
    (h1 : lookupK d s.kitties = none) (h2 : s.countForKitties + 1 < 2 ^ 32)
    (h3 : (s.kittiesOwned o).length < 100) :
    mint s o d = .ok { s with
      kitties := insertK d ⟨d, o, none⟩ s.kitties,
      kittiesOwned := Function.update s.kittiesOwned o (s.kittiesOwned o ++ [d]),
      countForKitties := s.countForKitties + 1,
      events := s.events ++ [.Created o] } := by
  have h2' : s.countForKitties + 1 < 4294967296 := by omega
  simp [mint, h1, checkedAddOne, h2', tryPush, h3]

theorem mint_ok_inv (s : State A) (o : A) (d : Dna) (s' : State A)
    (h : mint s o d = .ok s') :
    lookupK d s.kitties = none ∧ s.countForKitties + 1 < 2 ^ 32 ∧
    (s.kittiesOwned o).length < 100 ∧
    s' = { s with
      kitties := insertK d ⟨d, o, none⟩ s.kitties,
      kittiesOwned := Function.update s.kittiesOwned o (s.kittiesOwned o ++ [d]),
      countForKitties := s.countForKitties + 1,
      events := s.events ++ [.Created o] } := by
  by_cases h1 : (lookupK d s.kitties).isSome
  · simp [mint, h1] at h
  · have h1' : lookupK d s.kitties = none := Option.not_isSome_iff_eq_none.mp h1
    by_cases h2 : s.countForKitties + 1 < 2 ^ 32
    · by_cases h3 : (s.kittiesOwned o).length < 100
      · rw [mint_eq_ok s o d h1' h2 h3] at h
        exact ⟨h1', h2, h3, (Except.ok.inj h).symm⟩
      · have h2' : s.countForKitties + 1 < 4294967296 := by omega
        simp [mint, h1, checkedAddOne, h2', tryPush, h3] at h
    · have h2' : ¬s.countForKitties + 1 < 4294967296 := by omega
      simp [mint, h1, checkedAddOne, h2'] at h

theorem do_transfer_eq_ok (s : State A) (src dst : A) (id : Dna) (kitty : Kitty A)
    (ind : Nat) (h0 : ¬src = dst) (h1 : lookupK id s.kitties = some kitty)
    (h2 : kitty.owner = src) (h3 : (s.kittiesOwned dst).length < 100)
    (h4 : position id (s.kittiesOwned src) = some ind) :
    do_transfer s src dst id = .ok { s with
      kitties := insertK id { kitty with owner := dst, price := none } s.kitties,
      kittiesOwned :=
        Function.update (Function.update s.kittiesOwned dst (s.kittiesOwned dst ++ [id]))
          src (swapRemove (s.kittiesOwned src) ind),
      events := s.events ++ [.Transferred src dst id] } := by
  simp [do_transfer, h0, h1, h2, tryPush, h3, h4]

theorem do_transfer_ok_inv (s : State A) (src dst : A) (id : Dna) (s' : State A)
    (h : do_transfer s src dst id = .ok s') :
    ¬src = dst ∧ ∃ kitty ind,
      lookupK id s.kitties = some kitty ∧ kitty.owner = src ∧
      (s.kittiesOwned dst).length < 100 ∧
      position id (s.kittiesOwned src) = some ind ∧
      s' = { s with
        kitties := insertK id { kitty with owner := dst, price := none } s.kitties,
        kittiesOwned :=
          Function.update (Function.update s.kittiesOwned dst (s.kittiesOwned dst ++ [id]))
            src (swapRemove (s.kittiesOwned src) ind),
        events := s.events ++ [.Transferred src dst id] } := by
  by_cases h0 : src = dst
  · simp [do_transfer, h0] at h
  · cases hk : lookupK id s.kitties with
    | none => simp [do_transfer, h0, hk] at h
    | some kitty =>
      by_cases h2 : kitty.owner = src
      · by_cases h3 : (s.kittiesOwned dst).length < 100
        · cases hp : position id (s.kittiesOwned src) with
          | none => simp [do_transfer, h0, hk, h2, tryPush, h3, hp] at h
          | some ind =>
            rw [do_transfer_eq_ok s src dst id kitty ind h0 hk h2 h3 hp] at h
            exact ⟨h0, kitty, ind, rfl, h2, h3, rfl, (Except.ok.inj h).symm⟩
        · simp [do_transfer, h0, hk, h2, tryPush, h3] at h
      · simp [do_transfer, h0, hk, h2] at h

theorem do_set_price_eq_ok (s : State A) (caller : A) (id : Dna) (np : Option Nat)
    (kitty : Kitty A) (h1 : lookupK id s.kitties = some kitty)
    (h2 : kitty.owner = caller) :
    do_set_price s caller id np = .ok { s with
      kitties := insertK id { kitty with price := np } s.kitties,
      events := s.events ++ [.PriceSet caller id np] } := by
  simp [do_set_price, h1, h2]

theorem do_set_price_ok_inv (s : State A) (caller : A) (id : Dna) (np : Option Nat)
    (s' : State A) (h : do_set_price s caller id np = .ok s') :
    ∃ kitty,
      lookupK id s.kitties = some kitty ∧ kitty.owner = caller ∧
      s' = { s with
        kitties := insertK id { kitty with price := np } s.kitties,
        events := s.events ++ [.PriceSet caller id np] } := by
  cases hk : lookupK id s.kitties with
  | none => simp [do_set_price, hk] at h
  | some kitty =>
    by_cases h2 : kitty.owner = caller
    · rw [do_set_price_eq_ok s caller id np kitty hk h2] at h
      exact ⟨kitty, rfl, h2, (Except.ok.inj h).symm⟩
    · simp [do_set_price, hk, h2] at h

theorem nativeTransfer_eq_ok (bal : A → Nat) (src dst : A) (amount : Nat)
    (mode : Preservation) (h : amount ≤ bal src) :
    nativeTransfer bal src dst amount mode =
      .ok (Function.update (Function.update bal src (bal src - amount)) dst
            ((Function.update bal src (bal src - amount)) dst + amount)) := by
  simp [nativeTransfer, h]

theorem nativeTransfer_ok_inv (bal : A → Nat) (src dst : A) (amount : Nat)
    (mode : Preservation) (bal' : A → Nat)
    (h : nativeTransfer bal src dst amount mode = .ok bal') :
    amount ≤ bal src ∧
    bal' = Function.update (Function.update bal src (bal src - amount)) dst
            ((Function.update bal src (bal src - amount)) dst + amount) := by
  by_cases hle : amount ≤ bal src
  · rw [nativeTransfer_eq_ok bal src dst amount mode hle] at h
    exact ⟨hle, (Except.ok.inj h).symm⟩
  · simp [nativeTransfer, hle] at h

theorem do_buy_kitty_ok_inv (s : State A) (buyer : A) (id : Dna) (mp : Nat)
    (s' : State A) (h : do_buy_kitty s buyer id mp = .ok s') :
    ∃ kitty p bal' s'',
      lookupK id s.kitties = some kitty ∧ kitty.price = some p ∧ p ≤ mp ∧
      nativeTransfer s.balances buyer kitty.owner p .Preserve = .ok bal' ∧
      do_transfer { s with balances := bal' } kitty.owner buyer id = .ok s'' ∧
      s' = { s'' with events := s''.events ++ [.Sold buyer id p] } := by
  cases hk : lookupK id s.kitties with
  | none => simp [do_buy_kitty, hk] at h
  | some kitty =>
    cases hpr : kitty.price with
    | none => simp [do_buy_kitty, hk, hpr] at h
    | some p =>
      by_cases hle : p ≤ mp
      swap
      · simp [do_buy_kitty, hk, hpr, hle] at h
      · cases hnt : nativeTransfer s.balances buyer kitty.owner p .Preserve with
        | error e => simp [do_buy_kitty, hk, hpr, hle, hnt] at h
        | ok bal' =>
          cases htr : do_transfer { s with balances := bal' } kitty.owner buyer id with
          | error e => simp [do_buy_kitty, hk, hpr, hle, hnt, htr] at h
          | ok s'' =>
            refine ⟨kitty, p, bal', s'', rfl, hpr, hle, hnt, htr, ?_⟩
            simp only [do_buy_kitty, hk, hpr, hle, if_true, hnt, htr] at h
            exact (Except.ok.inj h).symm

/-! ## Preservation of the ownership invariant -/

theorem mint_preserves_inv (s : State A) (o : A) (d : Dna) (s' : State A)
    (hinv : OwnershipInv s) (h : mint s o d = .ok s') : OwnershipInv s' := by
  obtain ⟨h1, h2, h3, rfl⟩ := mint_ok_inv s o d s' h
  obtain ⟨hown, hreg⟩ := hinv
  have hfresh : ∀ a, d ∉ s.kittiesOwned a := by
    intro a hm
    have := hreg a d hm
    rw [h1] at this
    simp at this
  constructor
  · intro d' k' hk'
    dsimp only at hk' ⊢
    by_cases hd : d' = d
    · subst hd
      rw [lookupK_insertK_self] at hk'
      obtain rfl : (⟨d', o, none⟩ : Kitty A) = k' := Option.some.inj hk'
      constructor
      · show countD d' (Function.update s.kittiesOwned o (s.kittiesOwned o ++ [d']) o) = 1
        rw [Function.update_same, countD_append]
        have h0 : countD d' (s.kittiesOwned o) = 0 := (countD_eq_zero_iff _ _).2 (hfresh o)
        simp [h0, countD]
      · intro a ha
        show d' ∉ Function.update s.kittiesOwned o (s.kittiesOwned o ++ [d']) a
        have ha' : a ≠ o := ha
        rw [Function.update_noteq ha']
        exact hfresh a
    · rw [lookupK_insertK_ne d' d _ _ hd] at hk'
      obtain ⟨hc, hna⟩ := hown d' k' hk'
      constructor
      · by_cases ho : k'.owner = o
        · rw [ho, Function.update_same, countD_append]
          rw [ho] at hc
          have hd' : ¬d = d' := fun hh => hd hh.symm
          have hz : countD d' [d] = 0 := by simp [countD, hd']
          omega
        · rw [Function.update_noteq ho]
          exact hc
      · intro a ha
        by_cases hao : a = o
        · subst hao
          rw [Function.update_same]
          intro hmem
          rcases List.mem_append.1 hmem with hm | hm
          · exact hna a ha hm
          · exact hd (List.mem_singleton.1 hm)
        · rw [Function.update_noteq hao]
          exact hna a ha
  · intro a d' hmem
    dsimp only at hmem ⊢
    by_cases hao : a = o
    · subst hao
      rw [Function.update_same] at hmem
      rcases List.mem_append.1 hmem with hm | hm
      · by_cases hd : d' = d
        · subst hd; rw [lookupK_insertK_self]; simp
        · rw [lookupK_insertK_ne d' d _ _ hd]; exact hreg a d' hm
      · obtain rfl : d' = d := List.mem_singleton.1 hm
        rw [lookupK_insertK_self]; simp
    · rw [Function.update_noteq hao] at hmem
      by_cases hd : d' = d
      · subst hd; rw [lookupK_insertK_self]; simp
      · rw [lookupK_insertK_ne d' d _ _ hd]; exact hreg a d' hmem

theorem do_transfer_preserves_inv (s : State A) (src dst : A) (id : Dna) (s' : State A)
    (hinv : OwnershipInv s) (h : do_transfer s src dst id = .ok s') : OwnershipInv s' := by
  obtain ⟨h0, kitty, ind, hk, h2, h3, hp, rfl⟩ := do_transfer_ok_inv s src dst id s' h
  obtain ⟨hown, hreg⟩ := hinv
  obtain ⟨hocc, hnot⟩ := hown id kitty hk
  rw [h2] at hocc hnot
  have hds : dst ≠ src := fun hh => h0 hh.symm
  have hmemsrc : id ∈ s.kittiesOwned src := (countD_pos_iff_mem _ _).1 (by omega)
  have hdstfree : id ∉ s.kittiesOwned dst := hnot dst hds
  have hcsw := countD_swapRemove id (s.kittiesOwned src) ind hp
  constructor
  · intro d' k' hk'
    dsimp only at hk' ⊢
    by_cases hd : d' = id
    · subst hd
      rw [lookupK_insertK_self] at hk'
      obtain rfl : ({ kitty with owner := dst, price := none } : Kitty A) = k' :=
        Option.some.inj hk'
      constructor
      · show countD d' (Function.update
            (Function.update s.kittiesOwned dst (s.kittiesOwned dst ++ [d'])) src
            (swapRemove (s.kittiesOwned src) ind) dst) = 1
        rw [Function.update_noteq hds, Function.update_same, countD_append]
        have hz : countD d' (s.kittiesOwned dst) = 0 := (countD_eq_zero_iff _ _).2 hdstfree
        simp [hz, countD]
      · intro a ha
        have ha' : a ≠ dst := ha
        show d' ∉ Function.update
            (Function.update s.kittiesOwned dst (s.kittiesOwned dst ++ [d'])) src
            (swapRemove (s.kittiesOwned src) ind) a
        by_cases has : a = src
        · subst has
          rw [Function.update_same]
          have := hcsw d'
          simp at this
          rw [← countD_eq_zero_iff]
          omega
        · rw [Function.update_noteq has, Function.update_noteq ha']
          exact hnot a has
    · rw [lookupK_insertK_ne d' id _ _ hd] at hk'
      obtain ⟨hc, hna⟩ := hown d' k' hk'
      constructor
      · by_cases hos : k'.owner = src
        · rw [hos, Function.update_same]
          have := hcsw d'
          rw [if_neg hd] at this
          rw [hos] at hc
          omega
        · rw [Function.update_noteq hos]
          by_cases hod : k'.owner = dst
          · rw [hod, Function.update_same, countD_append]
            rw [hod] at hc
            have hd' : ¬id = d' := fun hh => hd hh.symm
            have hz : countD d' [id] = 0 := by simp [countD, hd']
            omega
          · rw [Function.update_noteq hod]
            exact hc
      · intro a ha
        by_cases has : a = src
        · subst has
          rw [Function.update_same]
          intro hmem
          exact hna a ha (mem_of_mem_swapRemove id _ ind hp d' hmem)
        · rw [Function.update_noteq has]
          by_cases had : a = dst
          · subst had
            rw [Function.update_same]
            intro hmem
            rcases List.mem_append.1 hmem with hm | hm
            · exact hna a ha hm
            · exact hd (List.mem_singleton.1 hm)
          · rw [Function.update_noteq had]
            exact hna a ha
  · intro a d' hmem
    dsimp only at hmem ⊢
    by_cases hd : d' = id
    · subst hd; rw [lookupK_insertK_self]; simp
    · rw [lookupK_insertK_ne d' id _ _ hd]
      by_cases has : a = src
      · subst has
        rw [Function.update_same] at hmem
        exact hreg a d' (mem_of_mem_swapRemove id _ ind hp d' hmem)
      · rw [Function.update_noteq has] at hmem
        by_cases had : a = dst
        · subst had
          rw [Function.update_same] at hmem
          rcases List.mem_append.1 hmem with hm | hm
          · exact hreg a d' hm
          · exact absurd (List.mem_singleton.1 hm) hd
        · rw [Function.update_noteq had] at hmem
          exact hreg a d' hmem

theorem do_set_price_preserves_inv (s : State A) (caller : A) (id : Dna) (np : Option Nat)
    (s' : State A) (hinv : OwnershipInv s) (h : do_set_price s caller id np = .ok s') :
    OwnershipInv s' := by
  obtain ⟨kitty, hk, h2, rfl⟩ := do_set_price_ok_inv s caller id np s' h
  obtain ⟨hown, hreg⟩ := hinv
  constructor
  · intro d' k' hk'
    dsimp only at hk' ⊢
    by_cases hd : d' = id
    · subst hd
      rw [lookupK_insertK_self] at hk'
      obtain rfl : ({ kitty with price := np } : Kitty A) = k' := Option.some.inj hk'
      exact hown d' kitty hk
    · rw [lookupK_insertK_ne d' id _ _ hd] at hk'
      exact hown d' k' hk'
  · intro a d' hmem
    dsimp only at hmem ⊢
    by_cases hd : d' = id
    · subst hd; rw [lookupK_insertK_self]; simp
    · rw [lookupK_insertK_ne d' id _ _ hd]
      exact hreg a d' hmem

theorem do_buy_preserves_inv (s : State A) (buyer : A) (id : Dna) (mp : Nat) (s' : State A)
    (hinv : OwnershipInv s) (h : do_buy_kitty s buyer id mp = .ok s') : OwnershipInv s' := by
  obtain ⟨kitty, p, bal', s'', hk, hpr, hle, hnt, htr, rfl⟩ :=
    do_buy_kitty_ok_inv s buyer id mp s' h
  have hinv' : OwnershipInv { s with balances := bal' } := hinv
  have hres : OwnershipInv s'' :=
    do_transfer_preserves_inv { s with balances := bal' } kitty.owner buyer id s'' hinv' htr
  exact hres

theorem ownedUniquely_of_inv (s : State A) (h : OwnershipInv s) : OwnedUniquely s := by
  obtain ⟨hown, _⟩ := h
  intro d k hk
  obtain ⟨hc, hna⟩ := hown d k hk
  refine ⟨(countD_pos_iff_mem d _).1 (by omega), ?_⟩
  intro a ha
  by_contra hne
  exact hna a hne ha

/-! ## Preservation of the counter invariant -/

theorem mint_count (s : State A) (o : A) (d : Dna) (s' : State A)
    (h : mint s o d = .ok s') :
    s'.countForKitties = s.countForKitties + 1 ∧
    s'.kitties.length = s.kitties.length + 1 := by
  obtain ⟨h1, h2, h3, rfl⟩ := mint_ok_inv s o d s' h
  exact ⟨rfl, length_insertK_of_none d _ _ h1⟩

theorem do_transfer_count (s : State A) (src dst : A) (id : Dna) (s' : State A)
    (h : do_transfer s src dst id = .ok s') :
    s'.countForKitties = s.countForKitties ∧
    s'.kitties.length = s.kitties.length := by
  obtain ⟨h0, kitty, ind, hk, h2, h3, hp, rfl⟩ := do_transfer_ok_inv s src dst id s' h
  exact ⟨rfl, length_insertK_of_isSome id _ _ (by rw [hk]; rfl)⟩

theorem do_set_price_count (s : State A) (caller : A) (id : Dna) (np : Option Nat)
    (s' : State A) (h : do_set_price s caller id np = .ok s') :
    s'.countForKitties = s.countForKitties ∧
    s'.kitties.length = s.kitties.length := by
  obtain ⟨kitty, hk, h2, rfl⟩ := do_set_price_ok_inv s caller id np s' h
  exact ⟨rfl, length_insertK_of_isSome id _ _ (by rw [hk]; rfl)⟩

theorem do_buy_count (s : State A) (buyer : A) (id : Dna) (mp : Nat) (s' : State A)
    (h : do_buy_kitty s buyer id mp = .ok s') :
    s'.countForKitties = s.countForKitties ∧
    s'.kitties.length = s.kitties.length := by
  obtain ⟨kitty, p, bal', s'', hk, hpr, hle, hnt, htr, rfl⟩ :=
    do_buy_kitty_ok_inv s buyer id mp s' h
  have := do_transfer_count { s with balances := bal' } kitty.owner buyer id s'' htr
  exact this

/-! ## Claim theorems -/

/-- C6: for every account `a` and every 32-byte id, `transfer(a, a, id)` fails
with SameAccountTransfer (the code's `TransferToSelf`) and changes no state,
whether or not a kitty with that id exists and whoever owns it. -/
theorem self_transfer_always_fails (s : State A) (a : A) (d : Dna) :
    do_transfer s a a d = .error .TransferToSelf ∧
    runOp (fun st => do_transfer st a a d) s = s := by
  have h : do_transfer s a a d = .error .TransferToSelf := by simp [do_transfer]
  exact ⟨h, by simp [runOp, h]⟩

/-- C9: when the counter holds 2^32 - 1 and the generated id is not already
present, create fails with TooManyAssets (the code's `TooManyKitties`) — the
increment is checked, not wrapping — and no Registry, counter or index
mutation remains. -/
theorem create_overflow_checked (s : State A) (o : A) (d : Dna)
    (hmax : s.countForKitties = 2 ^ 32 - 1) (hfresh : lookupK d s.kitties = none) :
    mint s o d = .error .TooManyKitties ∧ runOp (fun st => mint st o d) s = s := by
  have h1 : ¬(lookupK d s.kitties).isSome := by simp [hfresh]
  have hpow : (2 : Nat) ^ 32 = 4294967296 := by norm_num
  rw [hpow] at hmax
  have h2 : ¬s.countForKitties + 1 < 4294967296 := by omega
  have h : mint s o d = .error .TooManyKitties := by
    simp [mint, h1, checkedAddOne, h2]
  exact ⟨h, by simp [runOp, h]⟩

/-- C9 witness: a concrete state whose counter sits at 2^32 - 1. -/
theorem create_overflow_checked_witness :
    mint { s0 with countForKitties := 2 ^ 32 - 1 } 0 dnaA = .error .TooManyKitties ∧
    runOp (fun st => mint st 0 dnaA) { s0 with countForKitties := 2 ^ 32 - 1 } =
      { s0 with countForKitties := 2 ^ 32 - 1 } :=
  create_overflow_checked { s0 with countForKitties := 2 ^ 32 - 1 } 0 dnaA rfl rfl

/-- C8: a buy whose maxPrice is below the listed price fails with PriceTooLow
(the code's `MaxPriceTooLow`); owner, price, every index and every balance are
unchanged — the balance-transfer primitive is checked only after the price
guard, so no funds move. -/
theorem buy_price_too_low (s : State A) (buyer : A) (d : Dna) (k : Kitty A) (p mp : Nat)
    (hk : lookupK d s.kitties = some k) (hp : k.price = some p) (hlt : mp < p) :
    do_buy_kitty s buyer d mp = .error .MaxPriceTooLow ∧
    runOp (fun st => do_buy_kitty st buyer d mp) s = s := by
  have hle : ¬p ≤ mp := by omega
  have h : do_buy_kitty s buyer d mp = .error .MaxPriceTooLow := by
    simp [do_buy_kitty, hk, hp, hle]
  exact ⟨h, by simp [runOp, h]⟩

/-- C8 witness: buying the kitty listed at 100 with maxPrice 50 fails. -/
theorem buy_price_too_low_witness :
    do_buy_kitty sInv 1 dnaA 50 = .error .MaxPriceTooLow ∧
    runOp (fun st => do_buy_kitty st 1 dnaA 50) sInv = sInv :=
  buy_price_too_low sInv 1 dnaA ⟨dnaA, 0, some 100⟩ 100 50 rfl rfl (by decide)

/-- C10: an owner can never complete a purchase of their own listed kitty:
with the kitty listed at `p` and maxPrice ≥ `p`, the buy always fails — with
TransferToSelf from the internal ownership transfer when the payment
succeeds, with InsufficientFunds otherwise — and nothing is committed. -/
theorem owner_cannot_buy_own (s : State A) (b : A) (d : Dna) (k : Kitty A) (p mp : Nat)
    (hk : lookupK d s.kitties = some k) (hown : k.owner = b) (hp : k.price = some p)
    (hle : p ≤ mp) :
    do_buy_kitty s b d mp =
      .error (if p ≤ s.balances b then .TransferToSelf else .InsufficientFunds) ∧
    runOp (fun st => do_buy_kitty st b d mp) s = s := by
  by_cases hb : p ≤ s.balances b
  · have h : do_buy_kitty s b d mp = .error .TransferToSelf := by
      simp [do_buy_kitty, hk, hp, hle, hown, nativeTransfer, hb, do_transfer]
    rw [if_pos hb]
    exact ⟨h, by simp [runOp, h]⟩
  · have h : do_buy_kitty s b d mp = .error .InsufficientFunds := by
      simp [do_buy_kitty, hk, hp, hle, hown, nativeTransfer, hb]
    rw [if_neg hb]
    exact ⟨h, by simp [runOp, h]⟩

/-- C10 witness: account 1 tries to buy its own kitty and fails with
TransferToSelf (its balance 200 covers the price 100). -/
theorem owner_cannot_buy_own_witness :
    do_buy_kitty sSelf 1 dnaA 150 =
      .error (if 100 ≤ sSelf.balances 1 then .TransferToSelf else .InsufficientFunds) ∧
    runOp (fun st => do_buy_kitty st 1 dnaA 150) sSelf = sSelf :=
  owner_cannot_buy_own sSelf 1 dnaA ⟨dnaA, 1, some 100⟩ 100 150 rfl rfl rfl (by decide)

/-- C2: an operation — create, transfer-in, or buy — whose target account's
inventory already holds 100 ids fails with TooManyOwned (once its earlier
guards pass), and the observable state is exactly the pre-state: no partial
ownership, no orphaned asset, and for buy the payment is rolled back by the
dispatch boundary. -/
theorem full_inventory_rejected (s : State A) (o src dst buyer : A) (dC dT dB : Dna)
    (kT kB : Kitty A) (p mp : Nat) :
    (lookupK dC s.kitties = none → s.countForKitties + 1 < 2 ^ 32 →
      (s.kittiesOwned o).length = 100 →
      mint s o dC = .error .TooManyOwned ∧ runOp (fun st => mint st o dC) s = s) ∧
    (¬src = dst → lookupK dT s.kitties = some kT → kT.owner = src →
      (s.kittiesOwned dst).length = 100 →
      do_transfer s src dst dT = .error .TooManyOwned ∧
      runOp (fun st => do_transfer st src dst dT) s = s) ∧
    (lookupK dB s.kitties = some kB → kB.price = some p → p ≤ mp →
      ¬kB.owner = buyer → p ≤ s.balances buyer →
      (s.kittiesOwned buyer).length = 100 →
      do_buy_kitty s buyer dB mp = .error .TooManyOwned ∧
      runOp (fun st => do_buy_kitty st buyer dB mp) s = s) := by
  refine ⟨?_, ?_, ?_⟩
  · intro h1 h2 h3
    have h1' : ¬(lookupK dC s.kitties).isSome := by simp [h1]
    have h2' : s.countForKitties + 1 < 4294967296 := by omega
    have h3' : ¬(s.kittiesOwned o).length < 100 := by omega
    have h : mint s o dC = .error .TooManyOwned := by
      simp [mint, h1', checkedAddOne, h2', tryPush, h3']
    exact ⟨h, by simp [runOp, h]⟩
  · intro h0 h1 h2 h3
    have h3' : ¬(s.kittiesOwned dst).length < 100 := by omega
    have h : do_transfer s src dst dT = .error .TooManyOwned := by
      simp [do_transfer, h0, h1, h2, tryPush, h3']
    exact ⟨h, by simp [runOp, h]⟩
  · intro h1 h2 h3 h4 h5 h6
    have hnt := nativeTransfer_eq_ok s.balances buyer kB.owner p .Preserve h5
    have h6' : ¬(s.kittiesOwned buyer).length < 100 := by omega
    have h : do_buy_kitty s buyer dB mp = .error .TooManyOwned := by
      simp [do_buy_kitty, h1, h2, h3, hnt, do_transfer, h4, tryPush, h6']
    exact ⟨h, by simp [runOp, h]⟩

/-- C2 witness: in `sFull` account 1 already owns 100 kitties; creating for 1,
transferring dnaA from 0 to 1, and 1 buying dnaA all fail with TooManyOwned
and leave the state untouched. -/
theorem full_inventory_rejected_witness :
    (mint sFull 1 dnaC = .error .TooManyOwned ∧
      runOp (fun st => mint st 1 dnaC) sFull = sFull) ∧
    (do_transfer sFull 0 1 dnaA = .error .TooManyOwned ∧
      runOp (fun st => do_transfer st 0 1 dnaA) sFull = sFull) ∧
    (do_buy_kitty sFull 1 dnaA 150 = .error .TooManyOwned ∧
      runOp (fun st => do_buy_kitty st 1 dnaA 150) sFull = sFull) := by
  obtain ⟨hc, ht, hb⟩ := full_inventory_rejected sFull 1 0 1 1 dnaC dnaA dnaA
    ⟨dnaA, 0, some 100⟩ ⟨dnaA, 0, some 100⟩ 100 150
  exact ⟨hc rfl (by norm_num [sFull]) rfl, ht (by decide) rfl rfl rfl,
    hb rfl rfl (by decide) (by decide) (by decide) rfl⟩

/-- C4 counterexample: in `sBad`, kitty dnaA exists with owner 0 but is absent
from 0's index; transferring it from 0 to 1 fails with NoKitty — exactly the
error a completely missing asset (dnaB) produces — so the failure is not a
distinct AssetNotOwned error. -/
theorem remove_absent_same_error_as_missing :
    do_transfer sBad 0 1 dnaA = .error .NoKitty ∧
    do_transfer sBad 0 1 dnaB = .error .NoKitty :=
  ⟨rfl, rfl⟩

/-- C4 (amended): when the id is absent from the sender's collection even
though the asset exists, its owner equals the sender, sender ≠ recipient and
the recipient has room, the transfer fails with the generic NoKitty error —
the same error used for a missing asset; the code has no separate
AssetNotOwned error. -/
theorem remove_absent_gives_noKitty (s : State A) (src dst : A) (d : Dna) (k : Kitty A)
    (h0 : ¬src = dst) (hk : lookupK d s.kitties = some k) (ho : k.owner = src)
    (hroom : (s.kittiesOwned dst).length < 100) (habs : d ∉ s.kittiesOwned src) :
    do_transfer s src dst d = .error .NoKitty ∧
    runOp (fun st => do_transfer st src dst d) s = s := by
  have hpos : position d (s.kittiesOwned src) = none := (position_eq_none_iff _ _).2 habs
  have h : do_transfer s src dst d = .error .NoKitty := by
    simp [do_transfer, h0, hk, ho, tryPush, hroom, hpos]
  exact ⟨h, by simp [runOp, h]⟩

/-- C4 witness: the concrete inconsistent state `sBad`. -/
theorem remove_absent_gives_noKitty_witness :
    do_transfer sBad 0 1 dnaA = .error .NoKitty ∧
    runOp (fun st => do_transfer st 0 1 dnaA) sBad = sBad :=
  remove_absent_gives_noKitty sBad 0 1 dnaA ⟨dnaA, 0, none⟩ (by decide) rfl rfl
    (by decide) (by simp [sBad])

/-- The genesis state satisfies the ownership invariant. -/
theorem s0_ownershipInv : OwnershipInv s0 := by
  constructor
  · intro d k hk
    simp [s0, lookupK] at hk
  · intro a d hmem
    simp [s0] at hmem

/-- The one-kitty state `sInv` satisfies the ownership invariant. -/
theorem sInv_ownershipInv : OwnershipInv sInv := by
  constructor
  · intro d k hk
    simp only [sInv, lookupK] at hk
    by_cases hd : dnaA = d
    · rw [if_pos hd] at hk
      obtain rfl : (⟨dnaA, 0, some 100⟩ : Kitty Nat) = k := Option.some.inj hk
      subst hd
      refine ⟨?_, ?_⟩
      · show countD dnaA (sInv.kittiesOwned 0) = 1
        simp [sInv, countD]
      · intro a ha
        show dnaA ∉ sInv.kittiesOwned a
        have ha' : ¬a = 0 := ha
        simp [sInv, ha']
    · rw [if_neg hd] at hk
      exact absurd hk (by simp)
  · intro a d hmem
    by_cases ha : a = 0
    · subst ha
      simp [sInv] at hmem
      subst hmem
      simp [sInv, lookupK]
    · simp [sInv, ha] at hmem

/-- C3: every operation preserves the ownership consistency: starting from a
state satisfying the ownership invariant, after a completed create, transfer,
setPrice or buy, every registered kitty's id appears in its owner's index
collection and in no other account's. -/
theorem ownership_consistency_preserved (s s' : State A) (o src dst caller buyer : A)
    (d : Dna) (np : Option Nat) (mp : Nat) (hinv : OwnershipInv s) :
    (mint s o d = .ok s' → OwnedUniquely s') ∧
    (do_transfer s src dst d = .ok s' → OwnedUniquely s') ∧
    (do_set_price s caller d np = .ok s' → OwnedUniquely s') ∧
    (do_buy_kitty s buyer d mp = .ok s' → OwnedUniquely s') :=
  ⟨fun h => ownedUniquely_of_inv _ (mint_preserves_inv s o d s' hinv h),
   fun h => ownedUniquely_of_inv _ (do_transfer_preserves_inv s src dst d s' hinv h),
   fun h => ownedUniquely_of_inv _ (do_set_price_preserves_inv s caller d np s' hinv h),
   fun h => ownedUniquely_of_inv _ (do_buy_preserves_inv s buyer d mp s' hinv h)⟩

/-- C3 witness: minting dnaA for account 0 in the genesis state yields a state
in which the freshly minted kitty is owned uniquely. -/
theorem ownership_consistency_preserved_witness :
    OwnedUniquely (runOp (fun st => mint st 0 dnaA) s0) :=
  (ownership_consistency_preserved s0 (runOp (fun st => mint st 0 dnaA) s0)
    0 0 0 0 0 dnaA none 0 s0_ownershipInv).1 rfl

/-- C5: after every successful transfer of `d` from `src` to `dst` in a state
satisfying the ownership invariant: dst's collection contains `d` exactly
once, src's collection no longer contains it, the kitty's owner is `dst` and
its price is None. -/
theorem transfer_postconditions (s : State A) (src dst : A) (d : Dna) (s' : State A)
    (hinv : OwnershipInv s) (h : do_transfer s src dst d = .ok s') :
    countD d (s'.kittiesOwned dst) = 1 ∧ d ∉ s'.kittiesOwned src ∧
    (lookupK d s'.kitties).map Kitty.owner = some dst ∧
    (lookupK d s'.kitties).map Kitty.price = some none := by
  have hinv' := do_transfer_preserves_inv s src dst d s' hinv h
  obtain ⟨h0, kitty, ind, hk, h2, h3, hp, rfl⟩ := do_transfer_ok_inv s src dst d s' h
  have hlk : lookupK d (insertK d { kitty with owner := dst, price := none } s.kitties) =
      some { kitty with owner := dst, price := none } := lookupK_insertK_self d _ _
  obtain ⟨hc, hna⟩ := hinv'.1 d { kitty with owner := dst, price := none } hlk
  refine ⟨hc, hna src h0, ?_, ?_⟩ <;> dsimp only <;> rw [hlk] <;> rfl

/-- C5 witness: transferring dnaA from 0 to 1 in `sInv`. -/
theorem transfer_postconditions_witness :
    countD dnaA ((runOp (fun st => do_transfer st 0 1 dnaA) sInv).kittiesOwned 1) = 1 ∧
    dnaA ∉ (runOp (fun st => do_transfer st 0 1 dnaA) sInv).kittiesOwned 0 ∧
    (lookupK dnaA (runOp (fun st => do_transfer st 0 1 dnaA) sInv).kitties).map
      Kitty.owner = some 1 ∧
    (lookupK dnaA (runOp (fun st => do_transfer st 0 1 dnaA) sInv).kitties).map
      Kitty.price = some none :=
  transfer_postconditions sInv 0 1 dnaA (runOp (fun st => do_transfer st 0 1 dnaA) sInv)
    sInv_ownershipInv rfl

/-- C7: after every completed operation the counter equals the number of
Registry entries: create increases both by exactly 1; transfer, setPrice and
buy change neither. -/
theorem count_matches_registry (s s' : State A) (o src dst caller buyer : A) (d : Dna)
    (np : Option Nat) (mp : Nat) (hcnt : CountInv s) :
    (mint s o d = .ok s' → CountInv s' ∧
      s'.countForKitties = s.countForKitties + 1 ∧
      s'.kitties.length = s.kitties.length + 1) ∧
    (do_transfer s src dst d = .ok s' → CountInv s' ∧
      s'.countForKitties = s.countForKitties ∧
      s'.kitties.length = s.kitties.length) ∧
    (do_set_price s caller d np = .ok s' → CountInv s' ∧
      s'.countForKitties = s.countForKitties ∧
      s'.kitties.length = s.kitties.length) ∧
    (do_buy_kitty s buyer d mp = .ok s' → CountInv s' ∧
      s'.countForKitties = s.countForKitties ∧
      s'.kitties.length = s.kitties.length) := by
  simp only [CountInv] at hcnt
  refine ⟨?_, ?_, ?_, ?_⟩ <;> intro h
  · obtain ⟨hc, hl⟩ := mint_count s o d s' h
    exact ⟨by simp only [CountInv]; omega, hc, hl⟩
  · obtain ⟨hc, hl⟩ := do_transfer_count s src dst d s' h
    exact ⟨by simp only [CountInv]; omega, hc, hl⟩
  · obtain ⟨hc, hl⟩ := do_set_price_count s caller d np s' h
    exact ⟨by simp only [CountInv]; omega, hc, hl⟩
  · obtain ⟨hc, hl⟩ := do_buy_count s buyer d mp s' h
    exact ⟨by simp only [CountInv]; omega, hc, hl⟩

/-- C7 witness: minting dnaA in the genesis state takes both the counter and
the Registry size from 0 to 1. -/
theorem count_matches_registry_witness :
    CountInv (runOp (fun st => mint st 0 dnaA) s0) ∧
    (runOp (fun st => mint st 0 dnaA) s0).countForKitties = s0.countForKitties + 1 ∧
    (runOp (fun st => mint st 0 dnaA) s0).kitties.length = s0.kitties.length + 1 :=
  (count_matches_registry s0 (runOp (fun st => mint st 0 dnaA) s0)
    0 0 0 0 0 dnaA none 0 rfl).1 rfl

/-- C1 counterexample: account 1 owns dnaA, listed at 100, and buys it itself
with maxPrice 150. The balance transfer (1 → 1, amount 100, Preserve mode)
succeeds, yet the buy fails with TransferToSelf and the dispatch boundary
restores the pre-state: the price stays Some 100 and no Sold notification
fires — refuting the claim for a buyer who is the current owner. -/
theorem buy_claim_fails_for_owner_buyer :
    nativeTransfer sSelf.balances 1 1 100 .Preserve =
      .ok (Function.update (Function.update sSelf.balances 1 (sSelf.balances 1 - 100)) 1
            ((Function.update sSelf.balances 1 (sSelf.balances 1 - 100)) 1 + 100)) ∧
    do_buy_kitty sSelf 1 dnaA 150 = .error .TransferToSelf ∧
    runOp (fun st => do_buy_kitty st 1 dnaA 150) sSelf = sSelf :=
  ⟨rfl, rfl, rfl⟩

/-- C1 (amended): for a buyer distinct from the current owner, with the kitty
listed at `p`, maxPrice ≥ `p`, room in the buyer's index, the id present in
the owner's index and the balance transfer succeeding, the buy moves exactly
`p` (not maxPrice) from the buyer to the previous owner using Preserve mode,
makes the buyer the owner, clears the price, and emits Transferred followed
by Sold{buyer, id, p}. -/
theorem buy_success_spec (s : State A) (buyer : A) (d : Dna) (k : Kitty A) (p mp : Nat)
    (bal' : A → Nat)
    (hk : lookupK d s.kitties = some k) (hp : k.price = some p) (hle : p ≤ mp)
    (hne : ¬k.owner = buyer) (hroom : (s.kittiesOwned buyer).length < 100)
    (hmem : d ∈ s.kittiesOwned k.owner)
    (hbt : nativeTransfer s.balances buyer k.owner p .Preserve = .ok bal') :
    ∃ s', do_buy_kitty s buyer d mp = .ok s' ∧
      s'.balances = bal' ∧
      bal' buyer = s.balances buyer - p ∧
      bal' k.owner = s.balances k.owner + p ∧
      (lookupK d s'.kitties).map Kitty.owner = some buyer ∧
      (lookupK d s'.kitties).map Kitty.price = some none ∧
      s'.events = s.events ++ [.Transferred k.owner buyer d, .Sold buyer d p] := by
  obtain ⟨ind, hpos⟩ := Option.isSome_iff_exists.mp
    (position_isSome_of_mem d (s.kittiesOwned k.owner) hmem)
  have htr := do_transfer_eq_ok { s with balances := bal' } k.owner buyer d k ind
    hne hk rfl hroom hpos
  have hbuy : do_buy_kitty s buyer d mp = .ok
      { countForKitties := s.countForKitties,
        kitties := insertK d { k with owner := buyer, price := none } s.kitties,
        kittiesOwned :=
          Function.update
            (Function.update s.kittiesOwned buyer (s.kittiesOwned buyer ++ [d]))
            k.owner (swapRemove (s.kittiesOwned k.owner) ind),
        balances := bal',
        events := s.events ++ [.Transferred k.owner buyer d] ++ [.Sold buyer d p] } := by
    simp only [do_buy_kitty, hk, hp, if_pos hle, hbt, htr]
  obtain ⟨hple, hbal⟩ := nativeTransfer_ok_inv s.balances buyer k.owner p .Preserve bal' hbt
  have hob : buyer ≠ k.owner := fun hh => hne hh.symm
  refine ⟨_, hbuy, rfl, ?_, ?_, ?_, ?_, ?_⟩
  · rw [hbal, Function.update_noteq hob, Function.update_same]
  · rw [hbal, Function.update_same, Function.update_noteq hne]
  · dsimp only
    rw [lookupK_insertK_self]
    rfl
  · dsimp only
    rw [lookupK_insertK_self]
    rfl
  · dsimp only
    rw [List.append_assoc]
    rfl

/-- C1 witness: account 1 buys dnaA from account 0 in `sInv` at listed price
100 with maxPrice 150. -/
theorem buy_success_spec_witness :
    ∃ s', do_buy_kitty sInv 1 dnaA 150 = .ok s' ∧
      s'.balances =
        Function.update (Function.update sInv.balances 1 (sInv.balances 1 - 100)) 0
          ((Function.update sInv.balances 1 (sInv.balances 1 - 100)) 0 + 100) ∧
      (Function.update (Function.update sInv.balances 1 (sInv.balances 1 - 100)) 0
          ((Function.update sInv.balances 1 (sInv.balances 1 - 100)) 0 + 100)) 1 =
        sInv.balances 1 - 100 ∧
      (Function.update (Function.update sInv.balances 1 (sInv.balances 1 - 100)) 0
          ((Function.update sInv.balances 1 (sInv.balances 1 - 100)) 0 + 100)) 0 =
        sInv.balances 0 + 100 ∧
      (lookupK dnaA s'.kitties).map Kitty.owner = some 1 ∧
      (lookupK dnaA s'.kitties).map Kitty.price = some none ∧
      s'.events = sInv.events ++ [.Transferred 0 1 dnaA, .Sold 1 dnaA 100] :=
  buy_success_spec sInv 1 dnaA ⟨dnaA, 0, some 100⟩ 100 150 _
    rfl rfl (by decide) (by decide) (by decide) (by simp [sInv]) rfl

end Kitties
